import Mathlib

/-!
# Verification of the Doodle draw-and-guess server (src/src/index.ts)

Shallow embedding of the room-lifecycle / round-scheduler core of the
server.  Modelling decisions:

* JavaScript `Map<string, _>` and `Record<string, _>` objects are modelled
  as insertion-ordered association lists `List (String × _)`; `Object.keys`
  / `Object.values` enumerate in insertion order, assignment to an existing
  key updates in place, `delete` removes the entry, and assignment to a new
  key appends at the end — matching the JS semantics for the non-numeric
  string keys (socket ids, room ids) actually used by the program.
* `Math.random()`-driven choices (`getRandomWord`, the generated room id in
  `joinRoom`) are modelled by an extra input parameter supplied by the
  environment (`idx : Nat` for the word pick, `freshId : String` for the
  generated room id).
* `setTimeout` / `clearTimeout` handles are modelled as `Nat` handles
  allocated from a counter `nextHandle` in the server state; scheduling and
  cancellation appear as explicit `Event.setTimer` / `Event.clearTimer`
  entries in the effect trace a handler returns.  A scheduled callback
  firing is modelled as a separate step (`timeoutFire`, `hintFire`,
  `startRound` for the 3-second cooldown re-entry); the step relation
  over-approximates the scheduler by allowing these steps at any time —
  the callback bodies carry exactly the source's own re-validation guards.
* Socket-level emits (`io.to(room).emit`, `socket.emit`) are modelled as
  entries of the returned `Event` list.  `socket.join` / `socket.leave`
  (transport group membership) have no server-side state and are not
  modelled.
* JS truthiness tests on `drawerId` / `currentWord` / `timerId` (always a
  non-empty string resp. a `Timeout` object when present) are modelled as
  `Option.isSome` tests.
* `String.prototype.trim` / `String.prototype.toLowerCase` are modelled by
  the structural functions `jsTrim` / `jsToLower` below (whitespace
  stripping, simple per-character case folding; on the Korean secret words
  case folding is the identity).
* Player scores (JS numbers mutated only by `+= 10` from `0`) are `Int`.
-/

/-- Source `type Player`. -/
structure Player where
  id : String
  nickname : String
  score : Int
deriving DecidableEq

/-- Source `type RoomState`.  `timerId` / `hintTimerId` hold the
`Nat` handle of the pending `setTimeout`, if any. -/
structure RoomState where
  id : String
  players : List (String × Player)
  drawerId : Option String
  currentWord : Option String
  round : Nat
  maxRounds : Nat
  category : String
  roundActive : Bool
  timerId : Option Nat
  hintTimerId : Option Nat
deriving DecidableEq

/-- The whole server: `rooms`, `socketRoomMap`, and the timer-handle
allocator. -/
structure ServerState where
  rooms : List (String × RoomState)
  socketRoomMap : List (String × String)
  nextHandle : Nat
deriving DecidableEq

/-- Outbound effects of one handler run: socket emissions plus timer
scheduling/cancellation, in program order. -/
inductive Event where
  | roomState (roomId : String) (players : List Player) (drawerId : Option String)
      (round maxRounds : Nat) (category : String) (roundActive : Bool)
  | systemMessage (roomId message : String)
  | roundStarted (roomId : String) (round maxRounds : Nat)
      (drawerId : Option String) (roundDurationSec : Nat)
  | wordForDrawer (target word : String)
  | hintUpdated (roomId hint : String)
  | roundEnded (roomId reason : String) (round : Nat)
  | clearCanvas (roomId : String)
  | answerResult (roomId : String) (correct : Bool)
      (playerId nickname word : String) (newScore : Int)
  | chat (roomId nickname message : String) (correct : Bool)
  | gameEnded (roomId : String) (players : List Player)
  | setTimer (handle delayMs : Nat)
  | clearTimer (handle : Nat)
deriving DecidableEq

/-! ## Association-list primitives (JS `Map` / string-keyed `Record`) -/

/-- Lookup: `m.get(k)` / `m[k]`. -/
def alGet {α : Type} : List (String × α) → String → Option α
  | [], _ => none
  | (k, v) :: rest, k2 => if k = k2 then some v else alGet rest k2

/-- Update: `m.set(k, v)` / `m[k] = v` — in place if present, else append. -/
def alSet {α : Type} : List (String × α) → String → α → List (String × α)
  | [], k2, v2 => [(k2, v2)]
  | (k, v) :: rest, k2, v2 =>
      if k = k2 then (k, v2) :: rest else (k, v) :: alSet rest k2 v2

/-- Deletion: `m.delete(k)` / `delete m[k]`. -/
def alDel {α : Type} : List (String × α) → String → List (String × α)
  | [], _ => []
  | (k, v) :: rest, k2 =>
      if k = k2 then alDel rest k2 else (k, v) :: alDel rest k2

/-- Mutation of the object stored under `k` (JS objects are mutated through
the reference held by the map). -/
def alModify {α : Type} : List (String × α) → String → (α → α) → List (String × α)
  | [], _, _ => []
  | (k, v) :: rest, k2, f =>
      if k = k2 then (k, f v) :: rest else (k, v) :: alModify rest k2 f

/-! ## Constants and pure helpers of the source -/

/-- JS `String.prototype.trim`: strip leading and trailing whitespace
(kernel-reducible structural version of string trimming). -/
def jsTrim (s : String) : String :=
  String.mk (((s.data.dropWhile Char.isWhitespace).reverse.dropWhile
    Char.isWhitespace).reverse)

/-- JS `String.prototype.toLowerCase`, as simple per-character case folding
(the identity on the Korean secret words). -/
def jsToLower (s : String) : String :=
  String.mk (s.data.map Char.toLower)

def ROUND_DURATION_SEC : Nat := 40
def ROUND_DURATION_MS : Nat := ROUND_DURATION_SEC * 1000

/-- The `CHO` table of leading-consonant symbols. -/
def CHO : List String :=
  ["ㄱ", "ㄲ", "ㄴ", "ㄷ", "ㄸ", "ㄹ", "ㅁ", "ㅂ", "ㅃ",
   "ㅅ", "ㅆ", "ㅇ", "ㅈ", "ㅉ", "ㅊ", "ㅋ", "ㅌ", "ㅍ", "ㅎ"]

/-- Source `WORD_POOL[category]` (a `Record` literal with three fixed keys). -/
def WORD_POOL (category : String) : Option (List String) :=
  if category = "food" then some ["사과", "바나나", "피자", "햄버거"]
  else if category = "animal" then some ["고양이", "강아지"]
  else if category = "object" then some ["집", "자동차", "별", "구름", "컵", "책"]
  else none

/-- Source `makeChosungHint`.  `Array.from(word)` splits into code points, exactly
the `Char`s of a Lean `String`; `ch.charCodeAt(0)` agrees with `Char.toNat`
on the BMP, and astral characters fall outside `0xAC00–0xD7A3` under both
readings, hence pass through unchanged either way. -/
def makeChosungHint (word : String) : String :=
  String.join (word.data.map (fun ch =>
    let code := ch.toNat
    if code < 0xac00 || code > 0xd7a3 then String.singleton ch
    else
      let base := code - 0xac00
      let choIndex := base / (21 * 28)
      CHO.getD choIndex (String.singleton ch)))

/-- Source `getRandomWord`.  `Math.floor(Math.random() * list.length)` is an
environment-chosen index in `[0, list.length)`, modelled by `idx % length`
for an arbitrary external `idx`. -/
def getRandomWord (category : String) (idx : Nat) : String :=
  let list := match WORD_POOL category with
    | some l => l
    | none => ["사과", "바나나", "피자", "햄버거"]
  list.getD (idx % list.length) ""

/-- Source `getPlayerList` (`Object.values`, insertion order). -/
def getPlayerList (room : RoomState) : List Player :=
  room.players.map (fun p => p.2)

/-- The room literal built by `getOrCreateRoom` for a missing id. -/
def newRoom (roomId : String) : RoomState :=
  { id := roomId, players := [], drawerId := none, currentWord := none,
    round := 0, maxRounds := 5, category := "food", roundActive := false,
    timerId := none, hintTimerId := none }

/-- Source `getOrCreateRoom`, acting on the `rooms` map. -/
def getOrCreateRoom (rooms : List (String × RoomState)) (roomId : String) :
    List (String × RoomState) :=
  match alGet rooms roomId with
  | some _ => rooms
  | none => alSet rooms roomId (newRoom roomId)

/-- Source `clearRoomTimers`: cancel whichever handles are present, in source
order (round timer first, hint timer second). -/
def clearRoomTimers (room : RoomState) : RoomState × List Event :=
  let step1 : RoomState × List Event :=
    match room.timerId with
    | some h => ({ room with timerId := none }, [Event.clearTimer h])
    | none => (room, [])
  match step1.1.hintTimerId with
  | some h => ({ step1.1 with hintTimerId := none }, step1.2 ++ [Event.clearTimer h])
  | none => (step1.1, step1.2)

/-- Source `broadcastRoomState`, as the event list it emits. -/
def broadcastRoomState (rooms : List (String × RoomState)) (roomId : String) :
    List Event :=
  match alGet rooms roomId with
  | none => []
  | some room =>
      [Event.roomState roomId (getPlayerList room) room.drawerId room.round
        room.maxRounds room.category room.roundActive]

/-- JS `Array.prototype.indexOf`: index of the first occurrence, `-1` when
absent. -/
def jsIndexOf : List String → String → Int
  | [], _ => -1
  | a :: rest, x =>
      if a = x then 0
      else
        let r := jsIndexOf rest x
        if r = -1 then -1 else r + 1

/-- Source `chooseNextDrawerId`. -/
def chooseNextDrawerId (room : RoomState) : Option String :=
  let ids := room.players.map (fun p => p.1)
  if ids.length = 0 then none
  else match room.drawerId with
  | none => some (ids.headD "")
  | some d =>
      let idx := jsIndexOf ids d
      if idx = -1 ∨ idx = (ids.length : Int) - 1 then some (ids.headD "")
      else some (ids.getD (idx + 1).toNat "")

/-! ## The round scheduler and the socket event handlers

Each handler maps the pre-state (plus its payload and any
environment-chosen randomness) to the post-state and the list of effects,
mirroring the source statement by statement. -/

/-- Source `startRound(roomId)`.  `idx` is the environment's random word pick.
Also the body of the 3-second cooldown `setTimeout(() => startRound(roomId), 3000)`. -/
def startRound (s : ServerState) (roomId : String) (idx : Nat) :
    ServerState × List Event :=
  match alGet s.rooms roomId with
  | none => (s, [])
  | some room0 =>
    if room0.players.length = 0 then (s, [])
    else
      let cleared := clearRoomTimers room0
      let room1 := { cleared.1 with round := cleared.1.round + 1 }
      if room1.round > room1.maxRounds then
        let room2 := { room1 with roundActive := false, currentWord := none,
                                  drawerId := none }
        let rooms2 := alSet s.rooms roomId room2
        ({ s with rooms := rooms2 },
          cleared.2 ++
          [Event.gameEnded roomId (getPlayerList room2),
           Event.clearCanvas roomId,
           Event.hintUpdated roomId ""] ++
          broadcastRoomState rooms2 roomId)
      else
        let nextDrawerId := chooseNextDrawerId room1
        let room2 := { room1 with drawerId := nextDrawerId,
                                  currentWord := some (getRandomWord room1.category idx),
                                  roundActive := true }
        let hHint := s.nextHandle
        let hTimeout := s.nextHandle + 1
        let room3 := { room2 with hintTimerId := some hHint, timerId := some hTimeout }
        let rooms2 := alSet s.rooms roomId room3
        let wordEvents := match room2.drawerId, room2.currentWord with
          | some d, some w => [Event.wordForDrawer d w]
          | _, _ => []
        ({ s with rooms := rooms2, nextHandle := s.nextHandle + 2 },
          cleared.2 ++
          [Event.clearCanvas roomId,
           Event.hintUpdated roomId "",
           Event.roundStarted roomId room2.round room2.maxRounds room2.drawerId
             ROUND_DURATION_SEC] ++
          wordEvents ++
          broadcastRoomState rooms2 roomId ++
          [Event.setTimer hHint (ROUND_DURATION_MS / 2),
           Event.setTimer hTimeout ROUND_DURATION_MS])

/-- The hint callback body scheduled in `startRound` (fires at half the
round duration). -/
def hintFire (s : ServerState) (roomId : String) : ServerState × List Event :=
  match alGet s.rooms roomId with
  | none => (s, [])
  | some r =>
      if r.roundActive = false then (s, [])
      else match r.currentWord with
      | none => (s, [])
      | some w => (s, [Event.hintUpdated roomId (makeChosungHint w)])

/-- The round-timeout callback body scheduled in `startRound` (fires at the
full round duration); it schedules the cooldown re-entry of `startRound`. -/
def timeoutFire (s : ServerState) (roomId : String) : ServerState × List Event :=
  match alGet s.rooms roomId with
  | none => (s, [])
  | some r =>
      if r.roundActive = false then (s, [])
      else
        let r2 := { r with roundActive := false }
        let rooms2 := alSet s.rooms roomId r2
        let hCooldown := s.nextHandle
        ({ s with rooms := rooms2, nextHandle := s.nextHandle + 1 },
          [Event.roundEnded roomId "시간이 종료되었습니다." r.round,
           Event.clearCanvas roomId,
           Event.hintUpdated roomId ""] ++
          broadcastRoomState rooms2 roomId ++
          [Event.setTimer hCooldown 3000])

/-- The `joinRoom` handler.  `freshId` is the environment's
`Math.random().toString(36).slice(2, 8)` fallback room id. -/
def handleJoinRoom (s : ServerState) (sid roomId nickname freshId : String) :
    ServerState × List Event :=
  let trimmedRoomId := if jsTrim roomId = "" then freshId else jsTrim roomId
  let trimmedNick := if jsTrim nickname = "" then "익명" else jsTrim nickname
  let rooms1 := getOrCreateRoom s.rooms trimmedRoomId
  let prevStep : List (String × RoomState) × List Event :=
    match alGet s.socketRoomMap sid with
    | none => (rooms1, [])
    | some prevRoomId =>
        match alGet rooms1 prevRoomId with
        | none => (rooms1, [])
        | some prevRoom =>
            let rooms2 := alSet rooms1 prevRoomId
              { prevRoom with players := alDel prevRoom.players sid }
            (rooms2, broadcastRoomState rooms2 prevRoomId)
  let srm2 := alSet s.socketRoomMap sid trimmedRoomId
  let rooms3 := alModify prevStep.1 trimmedRoomId (fun r =>
    { r with players := alSet r.players sid (Player.mk sid trimmedNick 0) })
  ({ s with rooms := rooms3, socketRoomMap := srm2 },
    prevStep.2 ++
    [Event.systemMessage trimmedRoomId (trimmedNick ++ " 님이 입장했습니다.")] ++
    broadcastRoomState rooms3 trimmedRoomId)

/-- The `setCategory` handler. -/
def handleSetCategory (s : ServerState) (sid cat : String) :
    ServerState × List Event :=
  match alGet s.socketRoomMap sid with
  | none => (s, [])
  | some roomId =>
      match alGet s.rooms roomId with
      | none => (s, [])
      | some room =>
          let c := if cat = "" then "food" else cat
          let rooms2 := alSet s.rooms roomId { room with category := c }
          ({ s with rooms := rooms2 }, broadcastRoomState rooms2 roomId)

/-- The `startGame` handler.  `idx` is the random word pick forwarded to
`startRound`. -/
def handleStartGame (s : ServerState) (sid : String) (idx : Nat) :
    ServerState × List Event :=
  match alGet s.socketRoomMap sid with
  | none => (s, [])
  | some roomId =>
      let rooms1 := getOrCreateRoom s.rooms roomId
      match alGet rooms1 roomId with
      | none => ({ s with rooms := rooms1 }, [])
      | some room =>
          if room.roundActive then ({ s with rooms := rooms1 }, [])
          else
            let rooms2 := alSet rooms1 roomId
              { room with round := 0, currentWord := none, drawerId := none }
            let afterStart := startRound { s with rooms := rooms2 } roomId idx
            (afterStart.1,
              [Event.systemMessage roomId "게임을 시작합니다!"] ++ afterStart.2)

/-- The `answer` handler. -/
def handleAnswer (s : ServerState) (sid message : String) :
    ServerState × List Event :=
  match alGet s.socketRoomMap sid with
  | none => (s, [])
  | some roomId =>
      match alGet s.rooms roomId with
      | none => (s, [])
      | some room =>
          match alGet room.players sid with
          | none => (s, [])
          | some player =>
              let text := jsTrim message
              if text = "" then (s, [])
              else if room.roundActive = false ∨ room.currentWord = none then
                (s, [Event.chat roomId player.nickname text false])
              else if room.drawerId = some sid then
                (s, [Event.chat roomId player.nickname text false])
              else
                let w := room.currentWord.getD ""
                let normalizedInput := jsToLower text
                let normalizedAnswer := jsToLower w
                if normalizedInput = normalizedAnswer then
                  let player2 := { player with score := player.score + 10 }
                  let rooms2 := alSet s.rooms roomId
                    { room with players := alSet room.players sid player2,
                                roundActive := false }
                  let hCooldown := s.nextHandle
                  ({ s with rooms := rooms2, nextHandle := s.nextHandle + 1 },
                    [Event.answerResult roomId true player2.id player2.nickname w
                       player2.score,
                     Event.roundEnded roomId
                       (player2.nickname ++ " 님이 정답을 맞췄습니다!") room.round,
                     Event.clearCanvas roomId,
                     Event.hintUpdated roomId ""] ++
                    broadcastRoomState rooms2 roomId ++
                    [Event.setTimer hCooldown 3000])
                else
                  (s, [Event.chat roomId player.nickname text false] ++
                      broadcastRoomState s.rooms roomId)

/-- The `chatMessage` handler (note: the message is not trimmed here). -/
def handleChatMessage (s : ServerState) (sid message : String) :
    ServerState × List Event :=
  match alGet s.socketRoomMap sid with
  | none => (s, [])
  | some roomId =>
      match alGet s.rooms roomId with
      | none => (s, [])
      | some room =>
          match alGet room.players sid with
          | none => (s, [])
          | some player =>
              (s, [Event.chat roomId player.nickname message false])

/-- The `disconnect` handler. -/
def handleDisconnect (s : ServerState) (sid : String) :
    ServerState × List Event :=
  match alGet s.socketRoomMap sid with
  | none => (s, [])
  | some roomId =>
      match alGet s.rooms roomId with
      | none => (s, [])
      | some room =>
          let nickname := match alGet room.players sid with
            | some p => p.nickname
            | none => "알 수 없음"
          let room1 := { room with players := alDel room.players sid }
          let rooms1 := alSet s.rooms roomId room1
          let srm2 := alDel s.socketRoomMap sid
          let departEvents :=
            [Event.systemMessage roomId (nickname ++ " 님이 퇴장했습니다.")]
          if room1.players.length = 0 then
            ({ s with rooms := alDel rooms1 roomId, socketRoomMap := srm2 },
              departEvents)
          else if room1.drawerId = some sid ∧ room1.roundActive = true then
            let room2 := { room1 with roundActive := false }
            let rooms2 := alSet rooms1 roomId room2
            let hCooldown := s.nextHandle
            ({ s with rooms := rooms2, socketRoomMap := srm2,
                       nextHandle := s.nextHandle + 1 },
              departEvents ++
              [Event.roundEnded roomId "출제자가 나갔습니다. 다음 라운드로 넘어갑니다."
                 room2.round,
               Event.clearCanvas roomId,
               Event.hintUpdated roomId ""] ++
              [Event.setTimer hCooldown 3000])
          else
            ({ s with rooms := rooms1, socketRoomMap := srm2 },
              departEvents ++ broadcastRoomState rooms1 roomId)

/-- The state of the freshly started process: no rooms, no bindings. -/
def initialState : ServerState :=
  { rooms := [], socketRoomMap := [], nextHandle := 0 }

/-- Reachability: the states the server can be in after any serialized
sequence of inbound events and fired timer callbacks.  Timer firings are
over-approximated (allowed at any time); the callback bodies contain the
source's own existence/state re-validation guards, so every invariant
proved over this relation holds a fortiori for the real scheduler.  The
`draw` and `clearCanvas` relays touch no server state and add no step. -/
inductive Reachable : ServerState → Prop where
  | init : Reachable initialState
  | joinRoom (s : ServerState) (sid roomId nickname freshId : String)
      (h : Reachable s) : Reachable (handleJoinRoom s sid roomId nickname freshId).1
  | setCategory (s : ServerState) (sid cat : String)
      (h : Reachable s) : Reachable (handleSetCategory s sid cat).1
  | startGame (s : ServerState) (sid : String) (idx : Nat)
      (h : Reachable s) : Reachable (handleStartGame s sid idx).1
  | answer (s : ServerState) (sid message : String)
      (h : Reachable s) : Reachable (handleAnswer s sid message).1
  | chatMessage (s : ServerState) (sid message : String)
      (h : Reachable s) : Reachable (handleChatMessage s sid message).1
  | disconnect (s : ServerState) (sid : String)
      (h : Reachable s) : Reachable (handleDisconnect s sid).1
  | hintFired (s : ServerState) (roomId : String)
      (h : Reachable s) : Reachable (hintFire s roomId).1
  | timeoutFired (s : ServerState) (roomId : String)
      (h : Reachable s) : Reachable (timeoutFire s roomId).1
  | cooldownRound (s : ServerState) (roomId : String) (idx : Nat)
      (h : Reachable s) : Reachable (startRound s roomId idx).1

/-! ## Derived definitions used by the claim statements -/

/-- The roster's connection identities in stable insertion order
(`Object.keys(room.players)`). -/
def rosterIds (room : RoomState) : List String :=
  room.players.map (fun p => p.1)

/-- The drawer selected for the `(k+1)`-th consecutive round over a fixed
roster: each round stores the chosen drawer back into `drawerId` (exactly
what `startRound` does) and the next round selects from there. -/
def nthDrawer (room : RoomState) : Nat → Option String
  | 0 => chooseNextDrawerId room
  | n + 1 => nthDrawer { room with drawerId := chooseNextDrawerId room } n

/-- Per-character hint map as the claim words it: a character whose code
point lies in the Hangul-syllable block `0xAC00–0xD7A3` becomes the
leading-consonant symbol at index `(code - 0xAC00) / 588` of the fixed
table `CHO`; every other character passes through unchanged.  (Comparison
definition for the refinement claim about `makeChosungHint`.) -/
def hintCharSpec (ch : Char) : String :=
  if 0xac00 ≤ ch.toNat ∧ ch.toNat ≤ 0xd7a3 then
    CHO.getD ((ch.toNat - 0xac00) / 588) ""
  else String.singleton ch

/-- Whole-word hint as the claim words it: per-character results
concatenated in the original character order. -/
def makeChosungHintSpec (word : String) : String :=
  String.join (word.data.map hintCharSpec)

/-- A player's score as the handlers keep it: non-negative and a multiple
of ten. -/
def scoreOk (p : Player) : Prop := 0 ≤ p.score ∧ (10 : Int) ∣ p.score

/-- Room-level invariant. `roomScores`: every roster entry has an ok
score.  `roomActiveWf`: an active round has a word and a drawer. -/
def roomScores (room : RoomState) : Prop :=
  ∀ pid p, alGet room.players pid = some p → scoreOk p

def roomActiveWf (room : RoomState) : Prop :=
  room.roundActive = true → room.currentWord.isSome = true ∧ room.drawerId.isSome = true

def roomInv (room : RoomState) : Prop := roomScores room ∧ roomActiveWf room

/-- All rooms of a registry satisfy `P`. -/
def roomsAll (P : RoomState → Prop) (l : List (String × RoomState)) : Prop :=
  ∀ rid room, alGet l rid = some room → P room

/-! ## Concrete scenario states -/

/-- C1 scenario: two players in `r1`, game started (drawer `A`, round
active), then `A` joins `r2` — the previous-room cleanup removes `A` from
`r1` without ending `r1`'s round. -/
def c1StepA : ServerState := (handleJoinRoom initialState "A" "r1" "alice" "g").1
def c1StepB : ServerState := (handleJoinRoom c1StepA "B" "r1" "bob" "g").1
def c1StepGame : ServerState := (handleStartGame c1StepB "A" 0).1
def c1Bad : ServerState := (handleJoinRoom c1StepGame "A" "r2" "alice" "g").1

/-- C1 witness scenario: one player, game started, round active. -/
def c1wJoin : ServerState := (handleJoinRoom initialState "W" "w1" "wendy" "g").1
def c1wActive : ServerState := (handleStartGame c1wJoin "W" 0).1

/-- The room `w1` holds in `c1wActive`. -/
def c1wRoom : RoomState :=
  { id := "w1", players := [("W", Player.mk "W" "wendy" 0)],
    drawerId := some "W", currentWord := some "사과", round := 1,
    maxRounds := 5, category := "food", roundActive := true,
    timerId := some 1, hintTimerId := some 0 }

/-- C2 scenario: sole player of `r1` joins `r2`; `r1` empties out. -/
def c2Step : ServerState := (handleJoinRoom initialState "A" "r1" "alice" "g").1
def c2Bad : ServerState := (handleJoinRoom c2Step "A" "r2" "alice" "g").1

/-- C3 scenario: one player, game started (both timer handles pending),
then that player disconnects — the room is destroyed. -/
def c3Join : ServerState := (handleJoinRoom initialState "A" "r1" "alice" "g").1
def c3Pre : ServerState := (handleStartGame c3Join "A" 0).1

/-- C4 witness scenario: active round in room `r`, drawer `D`, secret word
`"apple"`, guesser `B`. -/
def c4Room : RoomState :=
  { id := "r",
    players := [("D", Player.mk "D" "dan" 0), ("B", Player.mk "B" "bob" 0)],
    drawerId := some "D", currentWord := some "apple", round := 1,
    maxRounds := 5, category := "food", roundActive := true,
    timerId := some 1, hintTimerId := some 0 }

def c4State : ServerState :=
  { rooms := [("r", c4Room)], socketRoomMap := [("D", "r"), ("B", "r")],
    nextHandle := 2 }

/-- C6 witness scenario: three-player roster, no previous drawer. -/
def c6Room : RoomState :=
  { id := "r",
    players := [("A", Player.mk "A" "a" 0), ("B", Player.mk "B" "b" 0),
                ("C", Player.mk "C" "c" 0)],
    drawerId := none, currentWord := none, round := 0, maxRounds := 5,
    category := "food", roundActive := false, timerId := none,
    hintTimerId := none }

/-- C7 witness scenario: round counter at `maxRounds`, one more round
requested. -/
def c7Room : RoomState :=
  { id := "r", players := [("A", Player.mk "A" "a" 30)],
    drawerId := some "A", currentWord := some "피자", round := 5,
    maxRounds := 5, category := "food", roundActive := true,
    timerId := some 7, hintTimerId := some 6 }

def c7State : ServerState :=
  { rooms := [("r", c7Room)], socketRoomMap := [("A", "r")], nextHandle := 8 }

/-- C10 witness scenario: a reachable state with one joined player. -/
def c10wState : ServerState := (handleJoinRoom initialState "P" "p1" "pat" "g").1

/-- The room `p1` holds in `c10wState`. -/
def c10wRoom : RoomState :=
  { id := "p1", players := [("P", Player.mk "P" "pat" 0)], drawerId := none,
    currentWord := none, round := 0, maxRounds := 5, category := "food",
    roundActive := false, timerId := none, hintTimerId := none }

/-- The room `r1` holds in `c2Step` (before the move to `r2`). -/
def c2PrevRoom : RoomState :=
  { id := "r1", players := [("A", Player.mk "A" "alice" 0)], drawerId := none,
    currentWord := none, round := 0, maxRounds := 5, category := "food",
    roundActive := false, timerId := none, hintTimerId := none }

/-! ## Lemmas on the association-list primitives -/

theorem alGet_alSet {α : Type} (l : List (String × α)) (k k2 : String) (v : α) :
    alGet (alSet l k v) k2 = if k = k2 then some v else alGet l k2 := by
  induction l with
  | nil => simp [alSet, alGet]
  | cons hd tl ih =>
    obtain ⟨hk, hv⟩ := hd
    simp only [alSet]
    by_cases h1 : hk = k
    · subst h1
      simp only [if_pos rfl, alGet]
      by_cases h2 : hk = k2 <;> simp [h2]
    · simp only [if_neg h1, alGet]
      by_cases h2 : hk = k2
      · have hne : ¬(k = k2) := fun h => h1 (h2.trans h.symm ▸ rfl)
        simp [h2, hne]
      · simp [h2, ih]

theorem alGet_alDel {α : Type} (l : List (String × α)) (k k2 : String) :
    alGet (alDel l k) k2 = if k = k2 then none else alGet l k2 := by
  induction l with
  | nil => simp [alDel, alGet]
  | cons hd tl ih =>
    obtain ⟨hk, hv⟩ := hd
    simp only [alDel]
    by_cases h1 : hk = k
    · subst h1
      simp only [if_pos rfl, if_true]
      rw [ih]
      by_cases h2 : hk = k2 <;> simp [alGet, h2]
    · simp only [if_neg h1, alGet]
      by_cases h2 : hk = k2
      · have hne : ¬(k = k2) := fun h => h1 (h2.trans h.symm ▸ rfl)
        simp [h2, hne]
      · simp [h2, ih]

theorem alGet_alModify {α : Type} (l : List (String × α)) (k : String) (f : α → α)
    (k2 : String) :
    alGet (alModify l k f) k2 = if k = k2 then (alGet l k2).map f else alGet l k2 := by
  induction l with
  | nil => simp [alModify, alGet]
  | cons hd tl ih =>
    obtain ⟨hk, hv⟩ := hd
    simp only [alModify]
    by_cases h1 : hk = k
    · subst h1
      simp only [if_pos rfl, alGet]
      by_cases h2 : hk = k2 <;> simp [h2]
    · simp only [if_neg h1, alGet]
      by_cases h2 : hk = k2
      · have hne : ¬(k = k2) := fun h => h1 (h2.trans h.symm ▸ rfl)
        simp [h2, hne]
      · simp [h2, ih]

theorem alGet_getOrCreateRoom (rooms : List (String × RoomState)) (rid k2 : String) :
    alGet (getOrCreateRoom rooms rid) k2 =
      if rid = k2 then some ((alGet rooms k2).getD (newRoom rid))
      else alGet rooms k2 := by
  unfold getOrCreateRoom
  cases h : alGet rooms rid with
  | some room =>
      by_cases h2 : rid = k2
      · subst h2; simp [h]
      · simp [h2]
  | none =>
      rw [alGet_alSet]
      by_cases h2 : rid = k2
      · subst h2; simp [h]
      · simp [h2]

/-! ## Generic room-registry invariant lemmas -/

theorem roomsAll_alSet {P : RoomState → Prop} {l : List (String × RoomState)}
    {k : String} {v : RoomState} (hl : roomsAll P l) (hv : P v) :
    roomsAll P (alSet l k v) := by
  intro rid room h
  rw [alGet_alSet] at h
  by_cases hk : k = rid
  · rw [if_pos hk] at h
    injection h with h2
    exact h2 ▸ hv
  · rw [if_neg hk] at h
    exact hl rid room h

theorem roomsAll_alDel {P : RoomState → Prop} {l : List (String × RoomState)}
    {k : String} (hl : roomsAll P l) : roomsAll P (alDel l k) := by
  intro rid room h
  rw [alGet_alDel] at h
  by_cases hk : k = rid
  · rw [if_pos hk] at h; cases h
  · rw [if_neg hk] at h
    exact hl rid room h

theorem roomsAll_alModify {P : RoomState → Prop} {l : List (String × RoomState)}
    {k : String} {f : RoomState → RoomState} (hl : roomsAll P l)
    (hf : ∀ r, P r → P (f r)) : roomsAll P (alModify l k f) := by
  intro rid room h
  rw [alGet_alModify] at h
  by_cases hk : k = rid
  · rw [if_pos hk] at h
    cases h0 : alGet l rid with
    | none => rw [h0] at h; cases h
    | some r0 =>
        rw [h0] at h
        injection h with h2
        exact h2 ▸ hf r0 (hl rid r0 h0)
  · rw [if_neg hk] at h
    exact hl rid room h

theorem roomsAll_getOrCreateRoom {l : List (String × RoomState)} {rid : String}
    (hl : roomsAll roomInv l) (hnew : ∀ r, roomInv (newRoom r)) :
    roomsAll roomInv (getOrCreateRoom l rid) := by
  intro rid2 room h
  rw [alGet_getOrCreateRoom] at h
  by_cases hk : rid = rid2
  · rw [if_pos hk] at h
    injection h with h2
    cases h0 : alGet l rid2 with
    | none => rw [h0] at h2; exact h2 ▸ hnew rid
    | some r0 => rw [h0] at h2; exact h2 ▸ hl rid2 r0 h0
  · rw [if_neg hk] at h
    exact hl rid2 room h

/-! ## Room-level invariant helpers -/

theorem roomInv_newRoom (rid : String) : roomInv (newRoom rid) := by
  constructor
  · intro pid p h
    cases h
  · intro h
    cases h

theorem scoreOk_zero : scoreOk (Player.mk sid nick 0) := by
  constructor
  · exact le_refl 0
  · exact ⟨0, rfl⟩

theorem roomScores_setPlayer {room : RoomState} {sid : String} {p : Player}
    (h : roomScores room) (hp : scoreOk p) :
    roomScores { room with players := alSet room.players sid p } := by
  intro pid q hq
  simp only at hq
  rw [alGet_alSet] at hq
  by_cases hk : sid = pid
  · rw [if_pos hk] at hq
    injection hq with h2
    exact h2 ▸ hp
  · rw [if_neg hk] at hq
    exact h pid q hq

theorem roomScores_delPlayer {room : RoomState} {sid : String}
    (h : roomScores room) :
    roomScores { room with players := alDel room.players sid } := by
  intro pid q hq
  simp only at hq
  rw [alGet_alDel] at hq
  by_cases hk : sid = pid
  · rw [if_pos hk] at hq; cases hq
  · rw [if_neg hk] at hq
    exact h pid q hq

theorem chooseNextDrawerId_isSome (room : RoomState) (h : room.players ≠ []) :
    (chooseNextDrawerId room).isSome = true := by
  unfold chooseNextDrawerId
  have hlen : ¬((room.players.map (fun p => p.1)).length = 0) := by
    simp only [List.length_map]
    intro hc
    exact h (List.length_eq_zero.mp hc)
  simp only [hlen, if_false]
  cases room.drawerId with
  | none => rfl
  | some d =>
      simp only
      split <;> rfl

theorem clearRoomTimers_fst (room : RoomState) :
    (clearRoomTimers room).1 = { room with timerId := none, hintTimerId := none } := by
  obtain ⟨i0, pl, dr, cw, rd, mr, cat, ra, ti, hti⟩ := room
  cases ti <;> cases hti <;> rfl

theorem clearRoomTimers_no_set (room : RoomState) (h : Nat) (d : Nat) :
    Event.setTimer h d ∉ (clearRoomTimers room).2 := by
  obtain ⟨i0, pl, dr, cw, rd, mr, cat, ra, ti, hti⟩ := room
  cases ti <;> cases hti <;> simp [clearRoomTimers]

theorem roomInv_setPlayer (room : RoomState) (sid : String) (p : Player)
    (h : roomInv room) (hp : scoreOk p) :
    roomInv { room with players := alSet room.players sid p } :=
  ⟨roomScores_setPlayer h.1 hp, fun hra => h.2 hra⟩

theorem roomInv_delPlayer (room : RoomState) (sid : String) (h : roomInv room) :
    roomInv { room with players := alDel room.players sid } :=
  ⟨roomScores_delPlayer h.1, fun hra => h.2 hra⟩

/-! ## Per-handler preservation of the room invariant -/

theorem inv_handleJoinRoom (s : ServerState) (sid roomId nickname freshId : String)
    (h : roomsAll roomInv s.rooms) :
    roomsAll roomInv (handleJoinRoom s sid roomId nickname freshId).1.rooms := by
  have h1 : roomsAll roomInv
      (getOrCreateRoom s.rooms (if jsTrim roomId = "" then freshId else jsTrim roomId)) :=
    roomsAll_getOrCreateRoom h roomInv_newRoom
  cases hb : alGet s.socketRoomMap sid with
  | none =>
      simp only [handleJoinRoom, hb]
      exact roomsAll_alModify h1 (fun r hr => roomInv_setPlayer r sid _ hr scoreOk_zero)
  | some prevRoomId =>
      cases hp : alGet (getOrCreateRoom s.rooms
          (if jsTrim roomId = "" then freshId else jsTrim roomId)) prevRoomId with
      | none =>
          simp only [handleJoinRoom, hb, hp]
          exact roomsAll_alModify h1 (fun r hr => roomInv_setPlayer r sid _ hr scoreOk_zero)
      | some prevRoom =>
          simp only [handleJoinRoom, hb, hp]
          exact roomsAll_alModify
            (roomsAll_alSet h1 (roomInv_delPlayer prevRoom sid (h1 prevRoomId prevRoom hp)))
            (fun r hr => roomInv_setPlayer r sid _ hr scoreOk_zero)

theorem inv_handleSetCategory (s : ServerState) (sid cat : String)
    (h : roomsAll roomInv s.rooms) :
    roomsAll roomInv (handleSetCategory s sid cat).1.rooms := by
  cases hb : alGet s.socketRoomMap sid with
  | none => simp only [handleSetCategory, hb]; exact h
  | some roomId =>
      cases hr : alGet s.rooms roomId with
      | none => simp only [handleSetCategory, hb, hr]; exact h
      | some room =>
          simp only [handleSetCategory, hb, hr]
          exact roomsAll_alSet h
            ⟨fun pid p hp => (h roomId room hr).1 pid p hp,
             fun hra => (h roomId room hr).2 hra⟩

theorem inv_startRound (s : ServerState) (roomId : String) (idx : Nat)
    (h : roomsAll roomInv s.rooms) :
    roomsAll roomInv (startRound s roomId idx).1.rooms := by
  cases hr : alGet s.rooms roomId with
  | none => simp only [startRound, hr]; exact h
  | some room0 =>
      simp only [startRound, hr]
      by_cases hlen : room0.players.length = 0
      · rw [if_pos hlen]
        exact h
      · rw [if_neg hlen]
        rw [clearRoomTimers_fst]
        have hpl : room0.players ≠ [] := fun hnil => hlen (by rw [hnil]; rfl)
        have hinv0 := h roomId room0 hr
        split
        · -- game over branch
          apply roomsAll_alSet h
          constructor
          · exact fun pid p hp => hinv0.1 pid p hp
          · intro hra
            exact Bool.noConfusion hra
        · -- active branch
          apply roomsAll_alSet h
          constructor
          · exact fun pid p hp => hinv0.1 pid p hp
          · intro hra
            refine ⟨rfl, ?_⟩
            exact chooseNextDrawerId_isSome _ hpl

theorem inv_handleStartGame (s : ServerState) (sid : String) (idx : Nat)
    (h : roomsAll roomInv s.rooms) :
    roomsAll roomInv (handleStartGame s sid idx).1.rooms := by
  cases hb : alGet s.socketRoomMap sid with
  | none => simp only [handleStartGame, hb]; exact h
  | some roomId =>
      have h1 : roomsAll roomInv (getOrCreateRoom s.rooms roomId) :=
        roomsAll_getOrCreateRoom h roomInv_newRoom
      cases hr : alGet (getOrCreateRoom s.rooms roomId) roomId with
      | none => simp only [handleStartGame, hb, hr]; exact h1
      | some room =>
          simp only [handleStartGame, hb, hr]
          by_cases hra : room.roundActive = true
          · rw [if_pos hra]
            exact h1
          · rw [if_neg hra]
            apply inv_startRound
            apply roomsAll_alSet h1
            constructor
            · exact fun pid p hp => (h1 roomId room hr).1 pid p hp
            · intro hra2
              exact absurd hra2 hra

theorem inv_handleAnswer (s : ServerState) (sid message : String)
    (h : roomsAll roomInv s.rooms) :
    roomsAll roomInv (handleAnswer s sid message).1.rooms := by
  cases hb : alGet s.socketRoomMap sid with
  | none => simp only [handleAnswer, hb]; exact h
  | some roomId =>
      cases hr : alGet s.rooms roomId with
      | none => simp only [handleAnswer, hb, hr]; exact h
      | some room =>
          cases hp : alGet room.players sid with
          | none => simp only [handleAnswer, hb, hr, hp]; exact h
          | some player =>
              simp only [handleAnswer, hb, hr, hp]
              by_cases ht : jsTrim message = ""
              · rw [if_pos ht]; exact h
              · rw [if_neg ht]
                by_cases hact : room.roundActive = false ∨ room.currentWord = none
                · rw [if_pos hact]; exact h
                · rw [if_neg hact]
                  by_cases hdr : room.drawerId = some sid
                  · rw [if_pos hdr]; exact h
                  · rw [if_neg hdr]
                    by_cases hmatch : jsToLower (jsTrim message) =
                        jsToLower (room.currentWord.getD "")
                    · rw [if_pos hmatch]
                      apply roomsAll_alSet h
                      have hpl := (h roomId room hr).1 sid player hp
                      constructor
                      · apply roomScores_setPlayer (h roomId room hr).1
                        constructor
                        · exact add_nonneg hpl.1 (by norm_num)
                        · exact dvd_add hpl.2 ⟨1, by norm_num⟩
                      · intro hra
                        exact Bool.noConfusion hra
                    · rw [if_neg hmatch]
                      exact h

theorem inv_handleChatMessage (s : ServerState) (sid message : String)
    (h : roomsAll roomInv s.rooms) :
    roomsAll roomInv (handleChatMessage s sid message).1.rooms := by
  cases hb : alGet s.socketRoomMap sid with
  | none => simp only [handleChatMessage, hb]; exact h
  | some roomId =>
      cases hr : alGet s.rooms roomId with
      | none => simp only [handleChatMessage, hb, hr]; exact h
      | some room =>
          cases hp : alGet room.players sid with
          | none => simp only [handleChatMessage, hb, hr, hp]; exact h
          | some player => simp only [handleChatMessage, hb, hr, hp]; exact h

theorem inv_handleDisconnect (s : ServerState) (sid : String)
    (h : roomsAll roomInv s.rooms) :
    roomsAll roomInv (handleDisconnect s sid).1.rooms := by
  cases hb : alGet s.socketRoomMap sid with
  | none => simp only [handleDisconnect, hb]; exact h
  | some roomId =>
      cases hr : alGet s.rooms roomId with
      | none => simp only [handleDisconnect, hb, hr]; exact h
      | some room =>
          simp only [handleDisconnect, hb, hr]
          have h1 : roomsAll roomInv (alSet s.rooms roomId
              { room with players := alDel room.players sid }) :=
            roomsAll_alSet h (roomInv_delPlayer room sid (h roomId room hr))
          split
          · exact roomsAll_alDel h1
          · split
            · apply roomsAll_alSet h1
              constructor
              · exact fun pid p hp =>
                  (roomInv_delPlayer room sid (h roomId room hr)).1 pid p hp
              · intro hra
                exact Bool.noConfusion hra
            · exact h1

theorem inv_timeoutFire (s : ServerState) (roomId : String)
    (h : roomsAll roomInv s.rooms) :
    roomsAll roomInv (timeoutFire s roomId).1.rooms := by
  cases hr : alGet s.rooms roomId with
  | none => simp only [timeoutFire, hr]; exact h
  | some room =>
      simp only [timeoutFire, hr]
      by_cases hra : room.roundActive = false
      · rw [if_pos hra]; exact h
      · rw [if_neg hra]
        apply roomsAll_alSet h
        constructor
        · exact fun pid p hp => (h roomId room hr).1 pid p hp
        · intro hra2
          exact Bool.noConfusion hra2

theorem inv_hintFire (s : ServerState) (roomId : String)
    (h : roomsAll roomInv s.rooms) :
    roomsAll roomInv (hintFire s roomId).1.rooms := by
  cases hr : alGet s.rooms roomId with
  | none => simp only [hintFire, hr]; exact h
  | some room =>
      simp only [hintFire, hr]
      by_cases hra : room.roundActive = false
      · rw [if_pos hra]; exact h
      · rw [if_neg hra]
        cases hw : room.currentWord with
        | none => exact h
        | some w => exact h

/-- Every reachable registry satisfies the room invariant: all scores are
non-negative multiples of 10, and an active round has a word and drawer. -/
theorem reachable_roomInv {s : ServerState} (h : Reachable s) :
    roomsAll roomInv s.rooms := by
  induction h with
  | init => intro rid room hr; cases hr
  | joinRoom s sid roomId nickname freshId h ih =>
      exact inv_handleJoinRoom s sid roomId nickname freshId ih
  | setCategory s sid cat h ih => exact inv_handleSetCategory s sid cat ih
  | startGame s sid idx h ih => exact inv_handleStartGame s sid idx ih
  | answer s sid message h ih => exact inv_handleAnswer s sid message ih
  | chatMessage s sid message h ih => exact inv_handleChatMessage s sid message ih
  | disconnect s sid h ih => exact inv_handleDisconnect s sid ih
  | hintFired s roomId h ih => exact inv_hintFire s roomId ih
  | timeoutFired s roomId h ih => exact inv_timeoutFire s roomId ih
  | cooldownRound s roomId idx h ih => exact inv_startRound s roomId idx ih

/-! ## Drawer-rotation lemmas -/

theorem jsIndexOf_of_not_mem (l : List String) (x : String) (h : x ∉ l) :
    jsIndexOf l x = -1 := by
  induction l with
  | nil => rfl
  | cons a tl ih =>
      have ha : a ≠ x := fun he => h (he ▸ List.mem_cons_self a tl)
      have htl : x ∉ tl := fun hm => h (List.mem_cons_of_mem a hm)
      simp [jsIndexOf, ha, ih htl]

theorem jsIndexOf_getD (l : List String) (hn : l.Nodup) (i : Nat) (hi : i < l.length) :
    jsIndexOf l (l.getD i "") = i := by
  induction l generalizing i with
  | nil => cases hi
  | cons a tl ih =>
      cases i with
      | zero => simp [jsIndexOf, List.getD_cons_zero]
      | succ j =>
          have hj : j < tl.length := Nat.lt_of_succ_lt_succ hi
          have hmem : tl.getD j "" ∈ tl := by
            rw [List.getD_eq_getElem tl "" hj]
            exact List.getElem_mem hj
          have hne : a ≠ tl.getD j "" :=
            fun he => (List.nodup_cons.mp hn).1 (he ▸ hmem)
          have ihv := ih (List.nodup_cons.mp hn).2 j hj
          rw [List.getD_cons_succ]
          simp only [jsIndexOf, if_neg hne, ihv]
          have hne2 : ¬((j : Int) = -1) := by omega
          rw [if_neg hne2]
          omega

theorem rosterIds_ne_nil {room : RoomState} (h : room.players ≠ []) :
    rosterIds room ≠ [] := by
  unfold rosterIds
  simp [h]

theorem headD_eq_getD_zero (l : List String) (h : l ≠ []) : l.headD "" = l.getD 0 "" := by
  cases l with
  | nil => exact absurd rfl h
  | cons a tl => rfl

theorem chooseNext_of_none (room : RoomState) (hne : room.players ≠ [])
    (hd : room.drawerId = none) :
    chooseNextDrawerId room = some ((rosterIds room).headD "") := by
  have hlen : ¬((room.players.map (fun p => p.1)).length = 0) := by
    simp only [List.length_map, List.length_eq_zero]
    exact hne
  simp [chooseNextDrawerId, rosterIds, hlen, hd, hne]

theorem chooseNext_of_absent (room : RoomState) (d : String) (hne : room.players ≠ [])
    (hd : room.drawerId = some d) (habs : d ∉ rosterIds room) :
    chooseNextDrawerId room = some ((rosterIds room).headD "") := by
  have hlen : ¬((room.players.map (fun p => p.1)).length = 0) := by
    simp only [List.length_map, List.length_eq_zero]
    exact hne
  have hidx : jsIndexOf (room.players.map (fun p => p.1)) d = -1 :=
    jsIndexOf_of_not_mem _ _ habs
  simp [chooseNextDrawerId, rosterIds, hlen, hd, hidx, hne]

theorem chooseNext_of_last (room : RoomState) (hnd : (rosterIds room).Nodup)
    (hne : room.players ≠ [])
    (hd : room.drawerId = some
      ((rosterIds room).getD ((rosterIds room).length - 1) "")) :
    chooseNextDrawerId room = some ((rosterIds room).headD "") := by
  have hlen : ¬((room.players.map (fun p => p.1)).length = 0) := by
    simp only [List.length_map, List.length_eq_zero]
    exact hne
  have hpos : 0 < (rosterIds room).length :=
    List.length_pos.mpr (rosterIds_ne_nil hne)
  have hidx : jsIndexOf (rosterIds room)
      ((rosterIds room).getD ((rosterIds room).length - 1) "") =
      ((rosterIds room).length - 1 : Nat) :=
    jsIndexOf_getD _ hnd _ (by omega)
  have hcond : (((rosterIds room).length - 1 : Nat) : Int) =
      ((rosterIds room).length : Int) - 1 := by omega
  simp only [chooseNextDrawerId, rosterIds, hlen, if_neg hlen, hd]
  rw [show (room.players.map (fun p => p.1)) = rosterIds room from rfl, hidx]
  rw [if_pos (Or.inr hcond)]
  simp

theorem chooseNext_of_mid (room : RoomState) (i : Nat) (hnd : (rosterIds room).Nodup)
    (hi : i + 1 < (rosterIds room).length)
    (hd : room.drawerId = some ((rosterIds room).getD i "")) :
    chooseNextDrawerId room = some ((rosterIds room).getD (i + 1) "") := by
  have hne : room.players ≠ [] := by
    intro hnil
    rw [show rosterIds room = room.players.map (fun p => p.1) from rfl, hnil] at hi
    cases hi
  have hlen : ¬((room.players.map (fun p => p.1)).length = 0) := by
    simp only [List.length_map, List.length_eq_zero]
    exact hne
  have hidx : jsIndexOf (rosterIds room) ((rosterIds room).getD i "") = (i : Nat) :=
    jsIndexOf_getD _ hnd _ (by omega)
  have hcond : ¬(((i : Nat) : Int) = -1 ∨
      ((i : Nat) : Int) = ((rosterIds room).length : Int) - 1) := by
    push_neg
    constructor <;> omega
  simp only [chooseNextDrawerId, rosterIds, hlen, if_neg hlen, hd]
  rw [show (room.players.map (fun p => p.1)) = rosterIds room from rfl, hidx]
  rw [if_neg hcond]
  rw [show ((i : Int) + 1).toNat = i + 1 from by omega]
  simp

theorem nthDrawer_walk (k : Nat) : ∀ (room : RoomState) (j : Nat),
    (rosterIds room).Nodup → j + k + 1 < (rosterIds room).length →
    room.drawerId = some ((rosterIds room).getD j "") →
    nthDrawer room k = some ((rosterIds room).getD (j + k + 1) "") := by
  induction k with
  | zero =>
      intro room j hnd hj hd
      show chooseNextDrawerId room = _
      have := chooseNext_of_mid room j hnd (by omega) hd
      rw [this]
  | succ m ih =>
      intro room j hnd hj hd
      show nthDrawer { room with drawerId := chooseNextDrawerId room } m = _
      have hstep : chooseNextDrawerId room = some ((rosterIds room).getD (j + 1) "") :=
        chooseNext_of_mid room j hnd (by omega) hd
      have hroster : rosterIds { room with drawerId := chooseNextDrawerId room } =
          rosterIds room := rfl
      have hrec := ih { room with drawerId := chooseNextDrawerId room } (j + 1)
        (by rw [hroster]; exact hnd)
        (by rw [hroster]; omega)
        (by show chooseNextDrawerId room = _; rw [hroster]; exact hstep)
      rw [hroster] at hrec
      rw [hrec]
      rw [show j + 1 + m + 1 = j + (m + 1) + 1 from by omega]

theorem nthDrawer_wrap (k : Nat) : ∀ (room : RoomState) (j : Nat),
    (rosterIds room).Nodup → room.players ≠ [] →
    j + k + 1 = (rosterIds room).length →
    room.drawerId = some ((rosterIds room).getD j "") →
    nthDrawer room k = some ((rosterIds room).getD 0 "") := by
  induction k with
  | zero =>
      intro room j hnd hne hj hd
      show chooseNextDrawerId room = _
      have hj2 : j = (rosterIds room).length - 1 := by omega
      have := chooseNext_of_last room hnd hne (by rw [hj2] at hd; exact hd)
      rw [this, headD_eq_getD_zero _ (rosterIds_ne_nil hne)]
  | succ m ih =>
      intro room j hnd hne hj hd
      show nthDrawer { room with drawerId := chooseNextDrawerId room } m = _
      have hstep : chooseNextDrawerId room = some ((rosterIds room).getD (j + 1) "") :=
        chooseNext_of_mid room j hnd (by omega) hd
      have hroster : rosterIds { room with drawerId := chooseNextDrawerId room } =
          rosterIds room := rfl
      have hrec := ih { room with drawerId := chooseNextDrawerId room } (j + 1)
        (by rw [hroster]; exact hnd)
        hne
        (by rw [hroster]; omega)
        (by show chooseNextDrawerId room = _; rw [hroster]; exact hstep)
      rw [hroster] at hrec
      exact hrec

theorem nthDrawer_from_none (room : RoomState) (hnd : (rosterIds room).Nodup)
    (hne : room.players ≠ []) (hd : room.drawerId = none) (k : Nat)
    (hk : k < (rosterIds room).length) :
    nthDrawer room k = some ((rosterIds room).getD k "") := by
  cases k with
  | zero =>
      show chooseNextDrawerId room = _
      rw [chooseNext_of_none room hne hd, headD_eq_getD_zero _ (rosterIds_ne_nil hne)]
  | succ m =>
      show nthDrawer { room with drawerId := chooseNextDrawerId room } m = _
      have hstep : chooseNextDrawerId room = some ((rosterIds room).getD 0 "") := by
        rw [chooseNext_of_none room hne hd, headD_eq_getD_zero _ (rosterIds_ne_nil hne)]
      have hroster : rosterIds { room with drawerId := chooseNextDrawerId room } =
          rosterIds room := rfl
      have hrec := nthDrawer_walk m { room with drawerId := chooseNextDrawerId room } 0
        (by rw [hroster]; exact hnd)
        (by rw [hroster]; omega)
        (by show chooseNextDrawerId room = _; rw [hroster]; exact hstep)
      rw [hroster] at hrec
      rw [hrec]
      rw [show 0 + m + 1 = m + 1 from by omega]

theorem nthDrawer_cycle (room : RoomState) (hnd : (rosterIds room).Nodup)
    (hne : room.players ≠ []) (hd : room.drawerId = none) :
    nthDrawer room (rosterIds room).length = some ((rosterIds room).getD 0 "") := by
  cases hlen : (rosterIds room).length with
  | zero =>
      exact absurd (List.length_eq_zero.mp hlen) (rosterIds_ne_nil hne)
  | succ m =>
      show nthDrawer { room with drawerId := chooseNextDrawerId room } m = _
      have hstep : chooseNextDrawerId room = some ((rosterIds room).getD 0 "") := by
        rw [chooseNext_of_none room hne hd, headD_eq_getD_zero _ (rosterIds_ne_nil hne)]
      have hroster : rosterIds { room with drawerId := chooseNextDrawerId room } =
          rosterIds room := rfl
      have hrec := nthDrawer_wrap m { room with drawerId := chooseNextDrawerId room } 0
        (by rw [hroster]; exact hnd)
        hne
        (by rw [hroster]; omega)
        (by show chooseNextDrawerId room = _; rw [hroster]; exact hstep)
      rw [hroster] at hrec
      exact hrec

/-! ## Hint-generator refinement lemmas -/

theorem hintChar_eq (ch : Char) :
    (if ch.toNat < 0xac00 || ch.toNat > 0xd7a3 then String.singleton ch
     else CHO.getD ((ch.toNat - 0xac00) / (21 * 28)) (String.singleton ch)) =
    hintCharSpec ch := by
  unfold hintCharSpec
  by_cases h1 : ch.toNat < 0xac00
  · have h2 : ¬(0xac00 ≤ ch.toNat ∧ ch.toNat ≤ 0xd7a3) := by omega
    simp [h1, h2]
  · by_cases h3 : 0xd7a3 < ch.toNat
    · have h2 : ¬(0xac00 ≤ ch.toNat ∧ ch.toNat ≤ 0xd7a3) := by omega
      simp [h1, h3, h2]
    · have h2 : 0xac00 ≤ ch.toNat ∧ ch.toNat ≤ 0xd7a3 := by omega
      have hb : ch.toNat - 0xac00 ≤ 11171 := by omega
      have hidx : (ch.toNat - 0xac00) / 588 < CHO.length := by
        have hdivle : (ch.toNat - 0xac00) / 588 ≤ 11171 / 588 :=
          Nat.div_le_div_right hb
        have h19 : CHO.length = 19 := rfl
        omega
      have hcond : (ch.toNat < 0xac00 || ch.toNat > 0xd7a3) = false := by
        simp [h1, h3]
      have h588 : (21 * 28 : Nat) = 588 := rfl
      rw [h588, hcond]
      simp only [Bool.false_eq_true, if_false, if_pos h2]
      rw [List.getD_eq_getElem _ _ hidx, List.getD_eq_getElem _ _ hidx]

theorem makeChosungHint_eq_spec (word : String) :
    makeChosungHint word = makeChosungHintSpec word := by
  unfold makeChosungHint makeChosungHintSpec
  congr 1
  apply List.map_congr_left
  intro ch _
  exact hintChar_eq ch

/-! ## Helper lemmas for handler-level claims -/

theorem alGet_alSet_isSome {α : Type} (l : List (String × α)) (k k2 : String) (v : α)
    (h : (alGet l k2).isSome = true) : (alGet (alSet l k v) k2).isSome = true := by
  rw [alGet_alSet]
  by_cases hk : k = k2 <;> simp [hk, h]

theorem alGet_getOrCreateRoom_self (rooms : List (String × RoomState)) (rid : String) :
    (alGet (getOrCreateRoom rooms rid) rid).isSome = true := by
  rw [alGet_getOrCreateRoom, if_pos rfl]
  rfl

theorem alGet_alModify_self {α : Type} (l : List (String × α)) (k : String) (f : α → α) :
    alGet (alModify l k f) k = (alGet l k).map f := by
  rw [alGet_alModify, if_pos rfl]

theorem joinRoom_target_get (X : List (String × RoomState)) (target sid nick : String)
    (hx : (alGet X target).isSome = true) :
    (alGet (alModify X target (fun r =>
        { r with players := alSet r.players sid (Player.mk sid nick 0) })) target).map
      (fun r => alGet r.players sid) = some (some (Player.mk sid nick 0)) := by
  rw [alGet_alModify_self]
  cases hv : alGet X target with
  | none => rw [hv] at hx; cases hx
  | some r =>
      simp only [Option.map_map, Option.map_some]
      show some (alGet (alSet r.players sid (Player.mk sid nick 0)) sid) = _
      rw [alGet_alSet, if_pos rfl]

theorem broadcastRoomState_no_set (rooms : List (String × RoomState)) (rid : String)
    (h d : Nat) : Event.setTimer h d ∉ broadcastRoomState rooms rid := by
  unfold broadcastRoomState
  cases alGet rooms rid <;> simp

/-! ## Claim theorems -/

/-- C5: hint generation is a pure deterministic function of the secret
word: `makeChosungHint` equals, character by character and in original
order, the claim's description `makeChosungHintSpec` — each character in
the Hangul-syllable block `0xAC00–0xD7A3` is replaced by the
leading-consonant symbol `CHO[(code - 0xAC00) / 588]`, every other
character passes through unchanged, and the results are concatenated in
order.  Being a function of the word alone, the same word always yields
the identical hint string. -/
theorem C5_hint_generation (word : String) :
    makeChosungHint word = makeChosungHintSpec word :=
  makeChosungHint_eq_spec word

/-- C9: every `joinRoom` leaves the joining connection's player record in
the target room freshly created with score 0 — with no precondition on the
prior state, so in particular a connection rejoining the room it already
occupies gets its accumulated score reset to 0. -/
theorem C9_join_resets_score (s : ServerState) (sid roomId nickname freshId : String) :
    (alGet (handleJoinRoom s sid roomId nickname freshId).1.rooms
        (if jsTrim roomId = "" then freshId else jsTrim roomId)).map
      (fun r => alGet r.players sid) =
    some (some (Player.mk sid
      (if jsTrim nickname = "" then "익명" else jsTrim nickname) 0)) := by
  cases hb : alGet s.socketRoomMap sid with
  | none =>
      simp only [handleJoinRoom, hb]
      exact joinRoom_target_get _ _ _ _ (alGet_getOrCreateRoom_self _ _)
  | some prevRoomId =>
      cases hp : alGet (getOrCreateRoom s.rooms
          (if jsTrim roomId = "" then freshId else jsTrim roomId)) prevRoomId with
      | none =>
          simp only [handleJoinRoom, hb, hp]
          exact joinRoom_target_get _ _ _ _ (alGet_getOrCreateRoom_self _ _)
      | some prevRoom =>
          simp only [handleJoinRoom, hb, hp]
          exact joinRoom_target_get _ _ _ _
            (alGet_alSet_isSome _ _ _ _ (alGet_getOrCreateRoom_self _ _))

/-- C1 counterexample: the claimed invariant `drawerId ∈ players` (and
`roundActive → drawerId ∈ players`) fails on a reachable state.  Trace:
`A` and `B` join `r1`, `A` starts the game (drawer `A`, round active),
then `A` joins `r2`; the previous-room cleanup in `joinRoom` removes `A`
from `r1`'s roster without ending `r1`'s round or clearing its drawer, so
`r1` ends the handler with `roundActive = true`, `drawerId = some "A"`,
and `"A"` absent from `players`. -/
theorem C1_counterexample :
    Reachable c1Bad ∧
    (alGet c1Bad.rooms "r1").map
      (fun r => (r.roundActive, r.drawerId, alGet r.players "A")) =
      some (true, some "A", none) :=
  ⟨Reachable.joinRoom _ "A" "r2" "alice" "g"
     (Reachable.startGame _ "A" 0
       (Reachable.joinRoom _ "B" "r1" "bob" "g"
         (Reachable.joinRoom _ "A" "r1" "alice" "g" Reachable.init))),
   by decide⟩

/-- C1 (amended): in every reachable room state, whenever `roundActive` is
true, `currentWord` and `drawerId` are both set.  (The stronger original
claim that `drawerId`, when set, is a key of `players` is false: the
`joinRoom` previous-room cleanup and the `disconnect` handler remove the
drawer's roster entry without clearing `drawerId` — see the
counterexample.) -/
theorem C1_active_round_wellformed (s : ServerState) (rid : String)
    (room : RoomState) (hreach : Reachable s)
    (hroom : alGet s.rooms rid = some room)
    (hactive : room.roundActive = true) :
    room.currentWord.isSome = true ∧ room.drawerId.isSome = true :=
  (reachable_roomInv hreach rid room hroom).2 hactive

/-- C1 witness: the amended invariant evaluated on the concrete reachable
state reached by one join and one `startGame`. -/
theorem C1_active_round_wellformed_witness :
    c1wRoom.currentWord.isSome = true ∧ c1wRoom.drawerId.isSome = true :=
  C1_active_round_wellformed c1wActive "w1" c1wRoom
    (Reachable.startGame _ "W" 0
      (Reachable.joinRoom _ "W" "w1" "wendy" "g" Reachable.init))
    (by decide) (by decide)

/-- C2 counterexample: the sole occupant `A` of `r1` joins `r2`; `r1`'s
membership becomes empty, yet `r1` is still present in the room registry
(`rooms.get "r1"` is `some` with an empty roster) — the claimed
destruction of the emptied previous room never happens. -/
theorem C2_counterexample :
    Reachable c2Bad ∧
    (alGet c2Bad.rooms "r1").map (fun r => r.players) = some [] :=
  ⟨Reachable.joinRoom _ "A" "r2" "alice" "g"
     (Reachable.joinRoom _ "A" "r1" "alice" "g" Reachable.init),
   by decide⟩

/-- C2 (amended): a join by a connection bound to a different previous
room removes that player from the previous room and broadcasts that room's
updated state (the membership-change notification), but it never destroys
the previous room: the room stays in the registry even when its roster
becomes empty. -/
theorem C2_join_prev_room_cleanup (s : ServerState)
    (sid roomId nickname freshId prevId : String) (prevRoom : RoomState)
    (hbind : alGet s.socketRoomMap sid = some prevId)
    (hprev : alGet s.rooms prevId = some prevRoom)
    (hne : prevId ≠ (if jsTrim roomId = "" then freshId else jsTrim roomId)) :
    alGet (handleJoinRoom s sid roomId nickname freshId).1.rooms prevId =
      some { prevRoom with players := alDel prevRoom.players sid }
    ∧ Event.roomState prevId
        (getPlayerList { prevRoom with players := alDel prevRoom.players sid })
        prevRoom.drawerId prevRoom.round prevRoom.maxRounds prevRoom.category
        prevRoom.roundActive ∈ (handleJoinRoom s sid roomId nickname freshId).2 := by
  have htarget : alGet (getOrCreateRoom s.rooms
      (if jsTrim roomId = "" then freshId else jsTrim roomId)) prevId = some prevRoom := by
    rw [alGet_getOrCreateRoom, if_neg (fun h => hne h.symm)]
    exact hprev
  simp only [handleJoinRoom, hbind, htarget]
  constructor
  · rw [alGet_alModify, if_neg (fun h => hne h.symm), alGet_alSet, if_pos rfl]
  · have hb2 : alGet (alSet (getOrCreateRoom s.rooms
        (if jsTrim roomId = "" then freshId else jsTrim roomId)) prevId
        { prevRoom with players := alDel prevRoom.players sid }) prevId =
        some { prevRoom with players := alDel prevRoom.players sid } := by
      rw [alGet_alSet, if_pos rfl]
    simp only [broadcastRoomState, hb2]
    exact List.mem_cons_self _ _

/-- C2 witness: the amended behaviour on the concrete one-player move from
`r1` to `r2`. -/
theorem C2_join_prev_room_cleanup_witness :
    alGet (handleJoinRoom c2Step "A" "r2" "alice" "g").1.rooms "r1" =
      some { c2PrevRoom with players := alDel c2PrevRoom.players "A" }
    ∧ Event.roomState "r1"
        (getPlayerList { c2PrevRoom with players := alDel c2PrevRoom.players "A" })
        c2PrevRoom.drawerId c2PrevRoom.round c2PrevRoom.maxRounds c2PrevRoom.category
        c2PrevRoom.roundActive ∈ (handleJoinRoom c2Step "A" "r2" "alice" "g").2 :=
  C2_join_prev_room_cleanup c2Step "A" "r2" "alice" "g" "r1" c2PrevRoom
    (by decide) (by decide) (by decide)

/-- C3 counterexample: one player joins `r1` and starts the game, leaving
both timer handles pending (`hintTimerId = some 0`, `timerId = some 1`);
the player then disconnects, the roster empties, and the room is removed
from the registry — but the disconnect emits no `clearTimer` effect at
all (its effect list is exactly the departure announcement), so the
removal did not cancel the pending handles. -/
theorem C3_counterexample :
    Reachable c3Pre ∧
    (alGet c3Pre.rooms "r1").map (fun r => (r.timerId, r.hintTimerId)) =
      some (some 1, some 0) ∧
    alGet (handleDisconnect c3Pre "A").1.rooms "r1" = none ∧
    (handleDisconnect c3Pre "A").2 =
      [Event.systemMessage "r1" "alice 님이 퇴장했습니다."] :=
  ⟨Reachable.startGame _ "A" 0
     (Reachable.joinRoom _ "A" "r1" "alice" "g" Reachable.init),
   by decide, by decide, by decide⟩

/-- C3 (amended): removing a room from the registry cancels none of its
pending timer handles (see the counterexample: the deletion emits no
`clearTimer`); instead, the leaked callbacks are neutralized by their own
guards — a round-timeout, hint, or cooldown `startRound` callback firing
for a room id absent from the registry changes no state and emits
nothing. -/
theorem C3_stale_callbacks_noop (s : ServerState) (roomId : String) (idx : Nat)
    (h : alGet s.rooms roomId = none) :
    timeoutFire s roomId = (s, []) ∧ hintFire s roomId = (s, []) ∧
    startRound s roomId idx = (s, []) := by
  refine ⟨?_, ?_, ?_⟩ <;> simp only [timeoutFire, hintFire, startRound, h]

/-- C3 witness: the guards on the empty registry. -/
theorem C3_stale_callbacks_noop_witness :
    timeoutFire initialState "r" = (initialState, []) ∧
    hintFire initialState "r" = (initialState, []) ∧
    startRound initialState "r" 0 = (initialState, []) :=
  C3_stale_callbacks_noop initialState "r" 0 (by decide)

/-- C10: in every reachable state, every player's score is a non-negative
multiple of 10 — scores start at 0 on join and the only mutation any
handler performs is adding exactly 10 on a correct guess. -/
theorem C10_scores_nonneg_multiples_of_ten (s : ServerState) (rid pid : String)
    (room : RoomState) (p : Player) (hreach : Reachable s)
    (hroom : alGet s.rooms rid = some room)
    (hp : alGet room.players pid = some p) :
    0 ≤ p.score ∧ (10 : Int) ∣ p.score :=
  (reachable_roomInv hreach rid room hroom).1 pid p hp

/-- C10 witness: the invariant evaluated on the concrete reachable state
after one join. -/
theorem C10_scores_witness :
    0 ≤ (Player.mk "P" "pat" 0).score ∧ (10 : Int) ∣ (Player.mk "P" "pat" 0).score :=
  C10_scores_nonneg_multiples_of_ten c10wState "p1" "P" c10wRoom (Player.mk "P" "pat" 0)
    (Reachable.joinRoom _ "P" "p1" "pat" "g" Reachable.init)
    (by decide) (by decide)

/-- C6: drawer rotation is deterministic over the roster's stable
insertion order: an empty roster selects no drawer; with no previous
drawer the first identity is picked; a previous drawer absent from the
roster, or at the last position, wraps to the first identity; otherwise
the next identity is picked.  Consequently, starting a game on a fixed
roster of size N, rounds 1..N visit exactly the roster in order (each
player exactly once) and round N+1 cycles back to the first. -/
theorem C6_drawer_rotation (room : RoomState)
    (hnd : (rosterIds room).Nodup) :
    (room.players = [] → chooseNextDrawerId room = none)
    ∧ (room.drawerId = none → room.players ≠ [] →
        chooseNextDrawerId room = some ((rosterIds room).headD ""))
    ∧ (∀ d, room.drawerId = some d → d ∉ rosterIds room → room.players ≠ [] →
        chooseNextDrawerId room = some ((rosterIds room).headD ""))
    ∧ (room.players ≠ [] →
        room.drawerId = some
          ((rosterIds room).getD ((rosterIds room).length - 1) "") →
        chooseNextDrawerId room = some ((rosterIds room).headD ""))
    ∧ (∀ i, i + 1 < (rosterIds room).length →
        room.drawerId = some ((rosterIds room).getD i "") →
        chooseNextDrawerId room = some ((rosterIds room).getD (i + 1) ""))
    ∧ (room.drawerId = none → room.players ≠ [] →
        (List.range (rosterIds room).length).map (nthDrawer room) =
          (rosterIds room).map some
        ∧ nthDrawer room (rosterIds room).length =
            some ((rosterIds room).headD "")) := by
  refine ⟨?_, ?_, ?_, ?_, ?_, ?_⟩
  · intro h
    simp [chooseNextDrawerId, h]
  · intro hd hne
    exact chooseNext_of_none room hne hd
  · intro d hd habs hne
    exact chooseNext_of_absent room d hne hd habs
  · intro hne hd
    exact chooseNext_of_last room hnd hne hd
  · intro i hi hd
    exact chooseNext_of_mid room i hnd hi hd
  · intro hd hne
    constructor
    · apply List.ext_getElem
      · simp
      · intro i h1 h2
        simp only [List.getElem_map, List.getElem_range]
        have hi : i < (rosterIds room).length := by simpa using h1
        rw [nthDrawer_from_none room hnd hne hd i hi]
        rw [List.getD_eq_getElem _ _ hi]
    · rw [nthDrawer_cycle room hnd hne hd,
        headD_eq_getD_zero _ (rosterIds_ne_nil hne)]

/-- C6 witness: the rotation over the concrete three-player roster
`A, B, C` starting from no previous drawer: the first three rounds visit
`A, B, C` and the fourth wraps back to `A`. -/
theorem C6_drawer_rotation_witness :
    (rosterIds c6Room).Nodup ∧
    ((List.range (rosterIds c6Room).length).map (nthDrawer c6Room) =
      (rosterIds c6Room).map some
     ∧ nthDrawer c6Room (rosterIds c6Room).length =
        some ((rosterIds c6Room).headD "")) :=
  ⟨by decide, (C6_drawer_rotation c6Room (by decide)).2.2.2.2.2 rfl (by decide)⟩

/-- C7: `startRound` on a non-empty room whose incremented round counter
exceeds `maxRounds` ends the game: the stored room gets
`roundActive = false`, `currentWord` and `drawerId` cleared (and its timer
handles cleared), a `gameEnded` event carrying the roster (and thus the
final scores) is emitted, and no timer is scheduled — no `setTimer` effect
is produced and the handle allocator is untouched, so no further round
starts automatically. -/
theorem C7_game_over (s : ServerState) (roomId : String) (idx : Nat)
    (room : RoomState)
    (hroom : alGet s.rooms roomId = some room)
    (hne : room.players ≠ [])
    (hover : room.round + 1 > room.maxRounds) :
    alGet (startRound s roomId idx).1.rooms roomId =
      some { room with round := room.round + 1, roundActive := false
                       currentWord := none, drawerId := none
                       timerId := none, hintTimerId := none }
    ∧ Event.gameEnded roomId (getPlayerList room) ∈ (startRound s roomId idx).2
    ∧ (startRound s roomId idx).1.nextHandle = s.nextHandle
    ∧ (∀ h d, Event.setTimer h d ∉ (startRound s roomId idx).2) := by
  have hlen : ¬(room.players.length = 0) := by
    simp only [List.length_eq_zero]
    exact hne
  simp only [startRound, hroom]
  rw [if_neg hlen, clearRoomTimers_fst]
  split
  · refine ⟨?_, ?_, rfl, ?_⟩
    · rw [alGet_alSet, if_pos rfl]
    · exact List.mem_append_left _
        (List.mem_append_right _ (List.mem_cons_self _ _))
    · intro h d hmem
      rcases List.mem_append.mp hmem with hin | hin
      · rcases List.mem_append.mp hin with hin2 | hin2
        · exact clearRoomTimers_no_set room h d hin2
        · simp at hin2
      · exact broadcastRoomState_no_set _ _ h d hin
  · rename_i hcond
    exact absurd hover hcond

/-- C7 witness: game over on the concrete room at `round = maxRounds = 5`
with one player of score 30. -/
theorem C7_game_over_witness :
    alGet (startRound c7State "r" 0).1.rooms "r" =
      some { c7Room with round := c7Room.round + 1, roundActive := false
                         currentWord := none, drawerId := none
                         timerId := none, hintTimerId := none }
    ∧ Event.gameEnded "r" (getPlayerList c7Room) ∈ (startRound c7State "r" 0).2
    ∧ (startRound c7State "r" 0).1.nextHandle = c7State.nextHandle
    ∧ (∀ h d, Event.setTimer h d ∉ (startRound c7State "r" 0).2) :=
  C7_game_over c7State "r" 0 c7Room (by decide) (by decide) (by decide)

/-- C8: operations referencing a missing room, player, or session binding
are no-ops: they return the state unchanged and emit nothing.  A guess
(`answer`) from a connection with no binding, with a binding to a missing
room, or with no player record in the room produces no broadcast at all;
the same holds for `chatMessage`, `setCategory`, `startGame` (no binding)
and `disconnect`, and for `startRound` and the two timer callbacks on a
missing room. -/
theorem C8_missing_refs_noop (s : ServerState) (sid cat message roomId : String)
    (idx : Nat) :
    (alGet s.socketRoomMap sid = none →
      handleAnswer s sid message = (s, []) ∧
      handleChatMessage s sid message = (s, []) ∧
      handleSetCategory s sid cat = (s, []) ∧
      handleStartGame s sid idx = (s, []) ∧
      handleDisconnect s sid = (s, []))
    ∧ (∀ rid, alGet s.socketRoomMap sid = some rid → alGet s.rooms rid = none →
      handleAnswer s sid message = (s, []) ∧
      handleChatMessage s sid message = (s, []) ∧
      handleSetCategory s sid cat = (s, []) ∧
      handleDisconnect s sid = (s, []))
    ∧ (∀ rid room, alGet s.socketRoomMap sid = some rid →
        alGet s.rooms rid = some room → alGet room.players sid = none →
      handleAnswer s sid message = (s, []) ∧
      handleChatMessage s sid message = (s, []))
    ∧ (alGet s.rooms roomId = none →
      startRound s roomId idx = (s, []) ∧
      timeoutFire s roomId = (s, []) ∧
      hintFire s roomId = (s, [])) := by
  refine ⟨?_, ?_, ?_, ?_⟩
  · intro hb
    refine ⟨?_, ?_, ?_, ?_, ?_⟩ <;>
      simp only [handleAnswer, handleChatMessage, handleSetCategory,
        handleStartGame, handleDisconnect, hb]
  · intro rid hb hr
    refine ⟨?_, ?_, ?_, ?_⟩ <;>
      simp only [handleAnswer, handleChatMessage, handleSetCategory,
        handleDisconnect, hb, hr]
  · intro rid room hb hr hp
    refine ⟨?_, ?_⟩ <;>
      simp only [handleAnswer, handleChatMessage, hb, hr, hp]
  · intro hr
    refine ⟨?_, ?_, ?_⟩ <;>
      simp only [startRound, timeoutFire, hintFire, hr]

/-- C8 witness: the no-op behaviour on the empty initial state, where the
connection `"x"` has no session binding and room `"r"` does not exist. -/
theorem C8_missing_refs_noop_witness :
    (handleAnswer initialState "x" "hello" = (initialState, []) ∧
     handleChatMessage initialState "x" "hello" = (initialState, []) ∧
     handleSetCategory initialState "x" "food" = (initialState, []) ∧
     handleStartGame initialState "x" 0 = (initialState, []) ∧
     handleDisconnect initialState "x" = (initialState, [])) ∧
    (startRound initialState "r" 0 = (initialState, []) ∧
     timeoutFire initialState "r" = (initialState, []) ∧
     hintFire initialState "r" = (initialState, [])) :=
  ⟨(C8_missing_refs_noop initialState "x" "food" "hello" "r" 0).1 (by decide),
   (C8_missing_refs_noop initialState "x" "food" "hello" "r" 0).2.2.2 (by decide)⟩

/-- C4: evaluation of a non-empty submitted answer while a round is active
with secret word `w`.  If the submitter is the current drawer, the trimmed
text is broadcast as plain non-correct chat and nothing else happens (it
is never evaluated).  Otherwise the trimmed text is compared case-
insensitively to `w`; on a match the player's stored score rises by
exactly 10 and an `answerResult` event carrying the player, the word, and
the new score is emitted; on a mismatch the state is unchanged and the
text is broadcast as plain non-correct chat (followed by a room-state
broadcast). -/
theorem C4_answer_evaluation (s : ServerState) (sid message roomId : String)
    (room : RoomState) (player : Player) (w : String)
    (hbind : alGet s.socketRoomMap sid = some roomId)
    (hroom : alGet s.rooms roomId = some room)
    (hplayer : alGet room.players sid = some player)
    (htext : jsTrim message ≠ "")
    (hactive : room.roundActive = true)
    (hword : room.currentWord = some w) :
    (room.drawerId = some sid →
      handleAnswer s sid message =
        (s, [Event.chat roomId player.nickname (jsTrim message) false]))
    ∧ (room.drawerId ≠ some sid → jsToLower (jsTrim message) = jsToLower w →
        ((alGet (handleAnswer s sid message).1.rooms roomId).map
            (fun r => alGet r.players sid)) =
          some (some { player with score := player.score + 10 })
        ∧ Event.answerResult roomId true player.id player.nickname w
            (player.score + 10) ∈ (handleAnswer s sid message).2)
    ∧ (room.drawerId ≠ some sid → jsToLower (jsTrim message) ≠ jsToLower w →
        handleAnswer s sid message =
          (s, [Event.chat roomId player.nickname (jsTrim message) false] ++
              broadcastRoomState s.rooms roomId)) := by
  have hc2 : ¬(room.roundActive = false ∨ (some w : Option String) = none) := by
    simp [hactive]
  simp only [handleAnswer, hbind, hroom, hplayer, hword, Option.getD_some]
  rw [if_neg htext, if_neg hc2]
  refine ⟨?_, ?_, ?_⟩
  · intro hdr
    rw [if_pos hdr]
  · intro hdr hmatch
    rw [if_neg hdr, if_pos hmatch]
    constructor
    · rw [alGet_alSet, if_pos rfl]
      show some (alGet (alSet room.players sid _) sid) = _
      rw [alGet_alSet, if_pos rfl]
    · exact List.mem_append_left _
        (List.mem_append_left _ (List.mem_cons_self _ _))
  · intro hdr hne2
    rw [if_neg hdr, if_neg hne2]

/-- C4 witness: in the concrete active round with secret word `"apple"`,
the non-drawer `B` submits `" Apple "`; trimming and case folding make it
match, `B`'s score rises from 0 to 10, and the `answerResult` event
carrying `B`, the word, and the new score is emitted. -/
theorem C4_answer_evaluation_witness :
    ((alGet (handleAnswer c4State "B" " Apple ").1.rooms "r").map
        (fun r => alGet r.players "B")) =
      some (some { Player.mk "B" "bob" 0 with score := (Player.mk "B" "bob" 0).score + 10 })
    ∧ Event.answerResult "r" true "B" "bob" "apple"
        ((Player.mk "B" "bob" 0).score + 10) ∈ (handleAnswer c4State "B" " Apple ").2 :=
  (C4_answer_evaluation c4State "B" " Apple " "r" c4Room (Player.mk "B" "bob" 0) "apple"
    (by decide) (by decide) (by decide) (by decide) (by decide) (by decide)).2.1
    (by decide) (by decide)
